import Mathlib

deriving instance DecidableEq for Except

/-!
Verification development for the Catalog Store of the AI-Sales-Assistant
repository (`tools/product_tools.py`): a CSV-backed product catalog with
keyword search, predicate filtering, inventory lookup and a checkout
operation that decrements stock and persists the whole catalog.

The embedding models the durable CSV as a `RawTable` of typed cells (the
view pandas `read_csv` produces after type inference), product records as
the `Record` structure, and each `*_internal` function of the source as a
Lean function over these types.  Numeric columns are modelled exactly over
`ℚ` (the source works with binary floats; every claim under study concerns
comparisons, exact copies and exact decrements of these values, which ℚ
models faithfully).  Python string normalization (`lower`, `upper`,
`strip`) is modelled over the character list, covering the ASCII range the
catalog uses.
-/

/-- One CSV cell as pandas `read_csv` sees it after type inference: either a
numeric value or a non-numeric text value.  A numeric-looking text cell is
represented as `num`, matching pandas type inference. -/
inductive Cell where
  | str (s : String)
  | num (q : ℚ)
  deriving DecidableEq

/-- The tabular durable store: column names plus rows of cells, each row
aligned positionally with the column list, as in a CSV file. -/
structure RawTable where
  columns : List String
  rows : List (List Cell)
  deriving DecidableEq

/-- One validated product record, the row shape `_load_products_df`
guarantees: string columns normalized to strings, `price` and `rating`
numeric, `inventory_count` cast to an integer. -/
structure Record where
  product_id : String
  product_name : String
  product_description : String
  type : String
  price : ℚ
  rating : ℚ
  inventory_count : ℤ
  deriving DecidableEq

/-- Python `str.lower`, modelled over the ASCII range via `Char.toLower`. -/
def pyLower (s : String) : String := String.mk (s.data.map Char.toLower)

/-- Python `str.upper`, modelled over the ASCII range via `Char.toUpper`. -/
def pyUpper (s : String) : String := String.mk (s.data.map Char.toUpper)

/-- Python `str.strip`: drop whitespace from both ends. -/
def pyStrip (s : String) : String :=
  String.mk (((s.data.dropWhile Char.isWhitespace).reverse.dropWhile
    Char.isWhitespace).reverse)

/-- The fixed required column set of `_load_products_df`, in the order the
source literal lists it. -/
def requiredCols : List String :=
  ["product_id", "product_name", "product_description", "type",
   "price", "rating", "inventory_count"]

/-- Cell lookup by column name, positional within the row. -/
def getCell (cols : List String) (row : List Cell) (c : String) : Option Cell :=
  (cols.findIdx? (fun x => x == c)).bind (fun i => row.get? i)

/-- pandas `to_numeric(errors="raise")` on one cell: succeeds exactly on
numeric cells and raises on non-numeric text. -/
def toNumericCell : Cell → Option ℚ
  | .num q => some q
  | .str _ => none

/-- pandas `astype(str)` on one cell: text is kept as is, a numeric value is
rendered to text. -/
def cellToString : Cell → String
  | .str s => s
  | .num q => toString q

/-- Python `int()` on a float, as `astype(int)` applies it to the
`inventory_count` column: truncation toward zero. -/
def truncQ (q : ℚ) : ℤ := Int.tdiv q.num (q.den : ℤ)

/-- The failure modes of `_load_products_df`: the `ValueError` naming the
missing required columns, and the cast `ValueError` from
`to_numeric(errors="raise")`. -/
inductive LoadError where
  | missingColumns (missing : List String)
  | castError
  deriving DecidableEq

/-- Validation of one row, combining the per-column casts of
`_load_products_df` (the source casts whole columns; row-wise validation
succeeds or fails on exactly the same tables, since the load is
all-or-nothing either way). -/
def parseRow (cols : List String) (row : List Cell) : Option Record := do
  let pid ← getCell cols row "product_id"
  let pname ← getCell cols row "product_name"
  let pdesc ← getCell cols row "product_description"
  let pty ← getCell cols row "type"
  let pr ← getCell cols row "price" >>= toNumericCell
  let ra ← getCell cols row "rating" >>= toNumericCell
  let inv ← getCell cols row "inventory_count" >>= toNumericCell
  pure { product_id := cellToString pid
       , product_name := cellToString pname
       , product_description := cellToString pdesc
       , type := cellToString pty
       , price := pr
       , rating := ra
       , inventory_count := truncQ inv }

/-- Validation of all rows: succeeds with the full record list exactly when
every row validates. -/
def parseRows (cols : List String) : List (List Cell) → Option (List Record)
  | [] => some []
  | row :: rest => do
      let r ← parseRow cols row
      let rs ← parseRows cols rest
      pure (r :: rs)

/-- `_load_products_df`: check the required columns are present (the source
reports the set difference; the embedding determinizes its order by
`requiredCols` order), then cast every row, failing the whole load on any
cast failure. -/
def load_products_df (t : RawTable) : Except LoadError (List Record) :=
  let missing := requiredCols.filter (fun c => !(t.columns.contains c))
  if missing.isEmpty then
    match parseRows t.columns t.rows with
    | some recs => .ok recs
    | none => .error .castError
  else .error (.missingColumns missing)

/-- One record rendered back to a CSV row, the shape `to_csv` writes for a
validated DataFrame row. -/
def recordToRow (r : Record) : List Cell :=
  [ .str r.product_id, .str r.product_name, .str r.product_description
  , .str r.type, .num r.price, .num r.rating, .num (r.inventory_count : ℚ) ]

/-- `_save_products_df`: persist the whole catalog by rewriting the full
table (the write-then-rename mechanics of the temp file live below this
level of abstraction; what the embedding keeps is that the durable state
after a save is exactly the full new table). -/
def save_products_df (recs : List Record) : RawTable :=
  { columns := requiredCols, rows := recs.map recordToRow }

/-- Python `round(x, 2)`: two-decimal rounding, modelled exactly over ℚ. -/
def round2 (q : ℚ) : ℚ := (round (q * 100) : ℚ) / 100

/-- Membership of `needle` as a leading run of `hay`. -/
def leadsWith : List Char → List Char → Bool
  | [], _ => true
  | _ :: _, [] => false
  | a :: as, b :: bs => a == b && leadsWith as bs

/-- Substring containment over character lists. -/
def hasSub (needle hay : List Char) : Bool :=
  match hay with
  | [] => needle.isEmpty
  | _ :: tl => leadsWith needle hay || hasSub needle tl

/-- Substring containment on strings: the behavior of a regular-expression
search whose pattern is free of metacharacters.  The guarded use in
`search_product_by_name_internal` applies it exactly to such queries. -/
def strContainsSub (hay needle : String) : Bool := hasSub needle.data hay.data

/-- The metacharacters of the Python regular-expression syntax.  pandas
`Series.str.contains` defaults to `regex=True`, so a query holding any of
these is interpreted as a pattern (or rejected as malformed), not as a
literal substring. -/
def regexMetaChars : String := ".^$*+?\x7b\x7d[]\\|()"

/-- A query free of regex metacharacters: for these queries, and only for
these, the regular-expression search of the source coincides with literal
substring search. -/
def plainQuery (q : String) : Bool :=
  q.data.all (fun c => !(regexMetaChars.data.contains c))

/-- Result shape of `search_product_by_name_internal`: the empty-query
failure dict, or the success dict with `count = len(matches)`. -/
inductive SearchResult where
  | emptyQuery
  | found (count : Nat) (matchList : List Record)
  deriving DecidableEq

/-- The row mask of the search: the lowercased name or the lowercased
description contains the query. -/
def searchRowMatches (q : String) (r : Record) : Bool :=
  strContainsSub (pyLower r.product_name) q
    || strContainsSub (pyLower r.product_description) q

/-- `search_product_by_name_internal`: load (a load failure propagates out
of the call before the keyword is consulted), normalize the keyword by
`strip().lower()`, reject an empty normalized keyword, else return every
row whose name or description contains it.  The source hands the non-empty
keyword to pandas `Series.str.contains`, whose default `regex=True`
interprets it as a regular expression; for a keyword free of regex
metacharacters that search is literal substring containment, which
`strContainsSub` implements.  A keyword holding a metacharacter reaches
the regular-expression engine itself, which this embedding leaves
unmodelled: the function returns `none` on those calls, and no theorem
below speaks about them. -/
def search_product_by_name_internal (product_name : String) (t : RawTable) :
    Option (Except LoadError SearchResult) :=
  match load_products_df t with
  | .error e => some (.error e)
  | .ok df =>
    let q := pyLower (pyStrip product_name)
    if q == "" then some (.ok SearchResult.emptyQuery)
    else if plainQuery q then
      let results := df.filter (searchRowMatches q)
      some (.ok (SearchResult.found results.length results))
    else none

/-- Result shape of `filter_products_internal` on success. -/
structure FilterResult where
  count : Nat
  recommendations : List Record
  deriving DecidableEq

/-- The comparator realizing `sort_values(by=["rating", "price"],
ascending=[False, True])`: `a` may precede `b` when its rating is higher,
or ratings tie and its price is not larger. -/
def recLE (a b : Record) : Bool :=
  decide (b.rating < a.rating) || (a.rating == b.rating && decide (a.price ≤ b.price))

/-- The sort order as a decidable relation, for `List.insertionSort`. -/
def recBefore : Record → Record → Prop := fun a b => recLE a b = true

instance : DecidableRel recBefore := fun a b => Bool.decEq (recLE a b) true

/-- pandas `DataFrame.head n`: the first `n` rows when `n` is nonnegative,
and all rows except the last `-n` when `n` is negative. -/
def dfHead (n : ℤ) (l : List Record) : List Record :=
  if 0 ≤ n then l.take n.toNat else l.take (l.length - (-n).toNat)

/-- The first filtering block of `filter_products_internal`: guarded by
Python truthiness of `product_type`, so it is skipped both for an absent
and for an empty-string value; otherwise it keeps rows whose lowercased
type equals the stripped, lowercased parameter. -/
def applyTypeFilter (product_type : Option String) (l : List Record) :
    List Record :=
  match product_type with
  | some s =>
      if s == "" then l
      else l.filter (fun r => pyLower r.type == pyLower (pyStrip s))
  | none => l

/-- The `min_rating` block: applied exactly when the parameter is present. -/
def applyMinRating (v? : Option ℚ) (l : List Record) : List Record :=
  match v? with
  | some v => l.filter (fun r : Record => decide (v ≤ r.rating))
  | none => l

/-- The `min_price` block: applied exactly when the parameter is present. -/
def applyMinPrice (v? : Option ℚ) (l : List Record) : List Record :=
  match v? with
  | some v => l.filter (fun r : Record => decide (v ≤ r.price))
  | none => l

/-- The `max_price` block: applied exactly when the parameter is present. -/
def applyMaxPrice (v? : Option ℚ) (l : List Record) : List Record :=
  match v? with
  | some v => l.filter (fun r : Record => decide (r.price ≤ v))
  | none => l

/-- The body of `filter_products_internal` over a loaded catalog: apply the
four predicate blocks in source order, return an empty success on an empty
filtered set, else sort by rating descending then price ascending and
truncate with `head(top_n)`.  The source sort is the pandas default
quicksort; the embedding uses an insertion sort, which agrees on
everything the spec promises (a permutation of the filtered rows, ordered
by the comparator). -/
def filterCore (product_type : Option String)
    (min_rating min_price max_price : Option ℚ) (top_n : ℤ)
    (df : List Record) : FilterResult :=
  let f4 := applyMaxPrice max_price (applyMinPrice min_price
    (applyMinRating min_rating (applyTypeFilter product_type df)))
  if f4.isEmpty then { count := 0, recommendations := [] }
  else
    let recs := dfHead top_n (f4.insertionSort recBefore)
    { count := recs.length, recommendations := recs }

/-- `filter_products_internal`: load, then compute `filterCore`. -/
def filter_products_internal (product_type : Option String)
    (min_rating min_price max_price : Option ℚ) (top_n : ℤ) (t : RawTable) :
    Except LoadError FilterResult :=
  (load_products_df t).map
    (filterCore product_type min_rating min_price max_price top_n)

/-- Success payload of `check_inventory_internal`. -/
structure InventoryInfo where
  product_id : String
  product_name : String
  price : ℚ
  rating : ℚ
  inventory_count : ℤ
  in_stock : Bool
  deriving DecidableEq

/-- Result shape of `check_inventory_internal`: the not-found dict carrying
the requested id, or the stock information of the first matching row. -/
inductive InventoryResult where
  | notFound (product_id : String)
  | found (info : InventoryInfo)
  deriving DecidableEq

/-- The row mask used by `check_inventory_internal` and `checkout_internal`:
the uppercased stored id equals the uppercased stripped requested id. -/
def idMatches (product_id : String) (r : Record) : Bool :=
  pyUpper r.product_id == pyUpper (pyStrip product_id)

/-- `check_inventory_internal`: load, look up the first row matching the
normalized id, report not-found with the requested id or the stock data
with `in_stock = inventory_count > 0`. -/
def check_inventory_internal (product_id : String) (t : RawTable) :
    Except LoadError InventoryResult :=
  (load_products_df t).map (fun df : List Record =>
    match df.find? (idMatches product_id) with
    | none => InventoryResult.notFound product_id
    | some r => InventoryResult.found
        { product_id := r.product_id
        , product_name := r.product_name
        , price := r.price
        , rating := r.rating
        , inventory_count := r.inventory_count
        , in_stock := decide (0 < r.inventory_count) })

/-- The order receipt a successful checkout returns. -/
structure Order where
  order_id : String
  product_id : String
  product_name : String
  qty : ℤ
  unit_price : ℚ
  total_price : ℚ
  deriving DecidableEq

/-- Result shape of `checkout_internal`: the three failure dicts, each with
its payload, or the success dict with the order. -/
inductive CheckoutResult where
  | invalidQuantity
  | notFound (product_id : String)
  | insufficientInventory (available : ℤ)
  | success (order : Order)
  deriving DecidableEq

/-- The in-place update `df.at[i, "inventory_count"] = available - quantity`
at the first row satisfying the mask. -/
def decrementFirst (p : Record → Bool) (q : ℤ) : List Record → List Record
  | [] => []
  | r :: rs =>
      if p r then { r with inventory_count := r.inventory_count - q } :: rs
      else r :: decrementFirst p q rs

/-- `checkout_internal`: reject a non-positive quantity before touching the
catalog, then load, resolve the normalized id to the first matching row,
reject when the available count is below the quantity, else decrement,
persist the whole catalog, and return the order receipt.  The fresh order
id `ORD-` plus eight random hex digits is modelled by the explicit
`entropy` argument.  The returned table is the durable state after the
call: unchanged on every failure, the saved decremented catalog on
success. -/
def checkout_internal (product_id : String) (quantity : ℤ) (entropy : String)
    (t : RawTable) : Except LoadError (CheckoutResult × RawTable) :=
  if quantity ≤ 0 then .ok (.invalidQuantity, t)
  else
    match load_products_df t with
    | .error e => .error e
    | .ok df =>
      match df.find? (idMatches product_id) with
      | none => .ok (.notFound product_id, t)
      | some r =>
        if r.inventory_count < quantity then
          .ok (.insufficientInventory r.inventory_count, t)
        else
          let df' := decrementFirst (idMatches product_id) quantity df
          .ok (.success
            { order_id := "ORD-" ++ entropy
            , product_id := r.product_id
            , product_name := r.product_name
            , qty := quantity
            , unit_price := r.price
            , total_price := round2 (r.price * (quantity : ℚ)) }
          , save_products_df df')

/-! ### Helper lemmas -/

theorem parseRow_recordToRow (r : Record) :
    parseRow requiredCols (recordToRow r) = some r := by
  simp [parseRow, recordToRow, requiredCols, getCell, cellToString, toNumericCell,
    truncQ, Rat.num_intCast, Rat.den_intCast, Int.tdiv_one]

theorem parseRows_map_recordToRow (recs : List Record) :
    parseRows requiredCols (recs.map recordToRow) = some recs := by
  induction recs with
  | nil => rfl
  | cons r rs ih => simp [parseRows, parseRow_recordToRow, ih]

/-- Persist-then-load is the identity on validated catalogs. -/
theorem load_save_roundtrip (recs : List Record) :
    load_products_df (save_products_df recs) = .ok recs := by
  simp [load_products_df, save_products_df, parseRows_map_recordToRow]

theorem idMatches_set_inventory (pid : String) (r : Record) (x : ℤ) :
    idMatches pid { r with inventory_count := x } = idMatches pid r := rfl

theorem find?_decrementFirst (p : Record → Bool) (q : ℤ)
    (hp : ∀ r x, p { r with inventory_count := x } = p r)
    (l : List Record) (r : Record) (h : l.find? p = some r) :
    (decrementFirst p q l).find? p =
      some { r with inventory_count := r.inventory_count - q } := by
  induction l with
  | nil => simp at h
  | cons a as ih =>
    by_cases hpa : p a = true
    · rw [List.find?_cons_of_pos _ hpa] at h
      cases h
      simp only [decrementFirst, hpa, if_pos]
      rw [List.find?_cons_of_pos _ (by rw [hp]; exact hpa)]
    · rw [List.find?_cons_of_neg _ hpa] at h
      simp only [decrementFirst, hpa, if_neg, Bool.not_eq_true]
      rw [List.find?_cons_of_neg _ hpa]
      exact ih h

theorem mem_decrementFirst (p : Record → Bool) (q : ℤ) (l : List Record)
    (x : Record) (h : x ∈ decrementFirst p q l) :
    x ∈ l ∨ ∃ r, l.find? p = some r ∧
      x = { r with inventory_count := r.inventory_count - q } := by
  induction l with
  | nil => simp [decrementFirst] at h
  | cons a as ih =>
    by_cases hpa : p a = true
    · simp only [decrementFirst, hpa, if_pos] at h
      rcases List.mem_cons.mp h with h1 | h2
      · exact Or.inr ⟨a, List.find?_cons_of_pos _ hpa, h1⟩
      · exact Or.inl (List.mem_cons_of_mem _ h2)
    · simp only [decrementFirst, hpa, if_neg, Bool.not_eq_true] at h
      rcases List.mem_cons.mp h with h1 | h2
      · exact Or.inl (h1 ▸ List.mem_cons_self _ _)
      · rcases ih h2 with h3 | ⟨r, hr, hx⟩
        · exact Or.inl (List.mem_cons_of_mem _ h3)
        · exact Or.inr ⟨r, by rw [List.find?_cons_of_neg _ hpa]; exact hr, hx⟩

/-- The ordering the spec promises for recommendations: rating descending,
ties broken by price ascending. -/
def rankedBefore (a b : Record) : Prop :=
  b.rating < a.rating ∨ (a.rating = b.rating ∧ a.price ≤ b.price)

theorem recBefore_iff (a b : Record) : recBefore a b ↔ rankedBefore a b := by
  simp [recBefore, recLE, rankedBefore]

theorem recBefore_total (a b : Record) : recBefore a b ∨ recBefore b a := by
  rw [recBefore_iff, recBefore_iff]
  rcases lt_trichotomy a.rating b.rating with h | h | h
  · exact Or.inr (Or.inl h)
  · rcases le_total a.price b.price with hp | hp
    · exact Or.inl (Or.inr ⟨h, hp⟩)
    · exact Or.inr (Or.inr ⟨h.symm, hp⟩)
  · exact Or.inl (Or.inl h)

theorem recBefore_trans (a b c : Record) (h1 : recBefore a b)
    (h2 : recBefore b c) : recBefore a c := by
  rw [recBefore_iff] at h1 h2 ⊢
  rcases h1 with h1 | ⟨h1e, h1p⟩ <;> rcases h2 with h2 | ⟨h2e, h2p⟩
  · exact Or.inl (h2.trans h1)
  · exact Or.inl (by rw [← h2e]; exact h1)
  · exact Or.inl (by rw [h1e]; exact h2)
  · exact Or.inr ⟨h1e.trans h2e, h1p.trans h2p⟩

instance : IsTotal Record recBefore := ⟨recBefore_total⟩

instance : IsTrans Record recBefore := ⟨recBefore_trans⟩

theorem mem_applyTypeFilter {pt : Option String} {l : List Record}
    {r : Record} (h : r ∈ applyTypeFilter pt l) :
    r ∈ l ∧ ∀ s, pt = some s → s ≠ "" →
      pyLower r.type = pyLower (pyStrip s) := by
  cases pt with
  | none => exact ⟨h, by intro s hs; cases hs⟩
  | some s =>
    by_cases hs : s == ""
    · rw [applyTypeFilter, if_pos hs] at h
      exact ⟨h, by intro s' hs' hne; cases hs'; exact absurd (by simpa using hs) hne⟩
    · rw [applyTypeFilter, if_neg hs] at h
      rcases List.mem_filter.mp h with ⟨hmem, hbeq⟩
      exact ⟨hmem, by intro s' hs' _; cases hs'; exact eq_of_beq hbeq⟩

theorem applyTypeFilter_mem {pt : Option String} {l : List Record}
    {r : Record} (hmem : r ∈ l)
    (h : ∀ s, pt = some s → s ≠ "" → pyLower r.type = pyLower (pyStrip s)) :
    r ∈ applyTypeFilter pt l := by
  cases pt with
  | none => exact hmem
  | some s =>
    by_cases hs : s == ""
    · rw [applyTypeFilter, if_pos hs]; exact hmem
    · rw [applyTypeFilter, if_neg hs]
      exact List.mem_filter.mpr ⟨hmem, beq_iff_eq.mpr (h s rfl (by simpa using hs))⟩

theorem mem_applyMinRating {v? : Option ℚ} {l : List Record} {r : Record}
    (h : r ∈ applyMinRating v? l) :
    r ∈ l ∧ ∀ v, v? = some v → v ≤ r.rating := by
  cases v? with
  | none => exact ⟨h, by intro v hv; cases hv⟩
  | some v =>
    rcases List.mem_filter.mp h with ⟨hmem, hdec⟩
    exact ⟨hmem, by intro v' hv'; cases hv'; exact of_decide_eq_true hdec⟩

theorem applyMinRating_mem {v? : Option ℚ} {l : List Record} {r : Record}
    (hmem : r ∈ l) (h : ∀ v, v? = some v → v ≤ r.rating) :
    r ∈ applyMinRating v? l := by
  cases v? with
  | none => exact hmem
  | some v => exact List.mem_filter.mpr ⟨hmem, decide_eq_true (h v rfl)⟩

theorem mem_applyMinPrice {v? : Option ℚ} {l : List Record} {r : Record}
    (h : r ∈ applyMinPrice v? l) :
    r ∈ l ∧ ∀ v, v? = some v → v ≤ r.price := by
  cases v? with
  | none => exact ⟨h, by intro v hv; cases hv⟩
  | some v =>
    rcases List.mem_filter.mp h with ⟨hmem, hdec⟩
    exact ⟨hmem, by intro v' hv'; cases hv'; exact of_decide_eq_true hdec⟩

theorem applyMinPrice_mem {v? : Option ℚ} {l : List Record} {r : Record}
    (hmem : r ∈ l) (h : ∀ v, v? = some v → v ≤ r.price) :
    r ∈ applyMinPrice v? l := by
  cases v? with
  | none => exact hmem
  | some v => exact List.mem_filter.mpr ⟨hmem, decide_eq_true (h v rfl)⟩

theorem mem_applyMaxPrice {v? : Option ℚ} {l : List Record} {r : Record}
    (h : r ∈ applyMaxPrice v? l) :
    r ∈ l ∧ ∀ v, v? = some v → r.price ≤ v := by
  cases v? with
  | none => exact ⟨h, by intro v hv; cases hv⟩
  | some v =>
    rcases List.mem_filter.mp h with ⟨hmem, hdec⟩
    exact ⟨hmem, by intro v' hv'; cases hv'; exact of_decide_eq_true hdec⟩

theorem applyMaxPrice_mem {v? : Option ℚ} {l : List Record} {r : Record}
    (hmem : r ∈ l) (h : ∀ v, v? = some v → r.price ≤ v) :
    r ∈ applyMaxPrice v? l := by
  cases v? with
  | none => exact hmem
  | some v => exact List.mem_filter.mpr ⟨hmem, decide_eq_true (h v rfl)⟩

/-- A keyword is empty or whitespace-only exactly when its stripped,
lowercased form is the empty string. -/
theorem pyLower_pyStrip_eq_empty_iff (s : String) :
    pyLower (pyStrip s) = "" ↔ s.data.all Char.isWhitespace = true := by
  constructor
  · intro h
    have hd : ((((s.data.dropWhile Char.isWhitespace).reverse.dropWhile
        Char.isWhitespace).reverse).map Char.toLower) = [] := by
      have := congrArg String.data h
      simpa [pyLower, pyStrip] using this
    rw [List.map_eq_nil_iff, List.reverse_eq_nil_iff, List.dropWhile_eq_nil_iff] at hd
    rw [List.all_eq_true]
    intro a ha
    rcases List.mem_append.mp
        ((List.takeWhile_append_dropWhile Char.isWhitespace s.data) ▸ ha) with
      h1 | h2
    · exact List.mem_takeWhile_imp h1
    · exact hd a (List.mem_reverse.mpr h2)
  · intro h
    have hnil : s.data.dropWhile Char.isWhitespace = [] :=
      List.dropWhile_eq_nil_iff.mpr (fun a ha => List.all_eq_true.mp h a ha)
    simp [pyLower, pyStrip, hnil]

/-! ### Concrete catalogs for witnesses and counterexamples -/

/-- First sample record: id P1, price 100, rating 5, 10 units in stock. -/
def sampleRec1 : Record :=
  { product_id := "P1", product_name := "Widget"
  , product_description := "A fine widget", type := "gadget"
  , price := 100, rating := 5, inventory_count := 10 }

/-- Second sample record: id P2, price 20, rating 4, 3 units in stock. -/
def sampleRec2 : Record :=
  { product_id := "P2", product_name := "Gizmo"
  , product_description := "Cheap gizmo", type := "tool"
  , price := 20, rating := 4, inventory_count := 3 }

/-- The durable sample catalog holding the two records above. -/
def sampleTable : RawTable := save_products_df [sampleRec1, sampleRec2]

/-- A record whose stored inventory count is negative. -/
def negRec : Record :=
  { product_id := "N1", product_name := "Ghost"
  , product_description := "Oversold item", type := "gadget"
  , price := 10, rating := 3, inventory_count := -5 }

/-- A durable catalog holding a negative inventory count. -/
def negTable : RawTable := save_products_df [negRec]

/-- A record with a negative rating and a negative price. -/
def oddRec : Record :=
  { product_id := "Q1", product_name := "Oddity"
  , product_description := "Strange pricing", type := "tool"
  , price := -5, rating := -1, inventory_count := 1 }

/-- A durable catalog holding the odd record. -/
def oddTable : RawTable := save_products_df [oddRec]

/-- A table whose header lacks the required `price` column. -/
def missingColTable : RawTable :=
  { columns := ["product_id", "product_name", "product_description", "type",
                "rating", "inventory_count"]
  , rows := [] }

/-- A table with a non-numeric cell in the `price` column. -/
def badCellTable : RawTable :=
  { columns := requiredCols
  , rows := [[Cell.str "B1", Cell.str "Bad", Cell.str "Bad row",
              Cell.str "gadget", Cell.str "n/a", Cell.num 4, Cell.num 2]] }

/-! ### Load failure lemmas -/

theorem bindToNone {α β : Type} (o : Option α) (f : α → Option β)
    (hf : ∀ a, f a = none) : (o >>= f) = none := by
  cases o with
  | none => rfl
  | some a => exact hf a

theorem parseRow_eq_none_of_fail (cols : List String) (row : List Cell)
    (h : (getCell cols row "price").bind toNumericCell = none ∨
         (getCell cols row "rating").bind toNumericCell = none ∨
         (getCell cols row "inventory_count").bind toNumericCell = none) :
    parseRow cols row = none := by
  unfold parseRow
  cases hpid : getCell cols row "product_id" <;>
    cases hn : getCell cols row "product_name" <;>
      cases hd : getCell cols row "product_description" <;>
        cases hty : getCell cols row "type" <;>
          rcases h with h | h | h <;>
            cases hpr : getCell cols row "price" <;>
              cases hra : getCell cols row "rating" <;>
                cases hin : getCell cols row "inventory_count" <;>
                  simp_all [bind, Option.bind] <;>
                    first
                      | rfl
                      | exact bindToNone _ _ (fun _ => rfl)
                      | exact bindToNone _ _
                          (fun _ => bindToNone _ _ (fun _ => rfl))

theorem parseRows_eq_none_of_mem (cols : List String) (rows : List (List Cell))
    (row : List Cell) (hmem : row ∈ rows) (h : parseRow cols row = none) :
    parseRows cols rows = none := by
  induction rows with
  | nil => cases hmem
  | cons a as ih =>
    rcases List.mem_cons.mp hmem with rfl | hmem2
    · simp [parseRows, h]
    · cases ha : parseRow cols a
      · simp [parseRows, ha]
      · simp [parseRows, ha, ih hmem2]

theorem parseRows_length (cols : List String) (rows : List (List Cell))
    (recs : List Record) (h : parseRows cols rows = some recs) :
    recs.length = rows.length := by
  induction rows generalizing recs with
  | nil => cases h; rfl
  | cons a as ih =>
    cases ha : parseRow cols a with
    | none => rw [parseRows, ha] at h; cases h
    | some r =>
      cases has : parseRows cols as with
      | none => rw [parseRows, ha, has] at h; cases h
      | some rs =>
        rw [parseRows, ha, has] at h
        cases h
        simpa using ih rs has

/-! ### Claim theorems -/

/-- Claim C1: for every catalog whose resolved record for the given product
id (case-insensitive normalized lookup) has at least the requested
quantity in stock, and every positive integer quantity, checkout succeeds,
the persisted catalog reloaded afterwards shows that record with its
inventory count decreased by exactly the quantity, and the returned order
has qty equal to the requested quantity, unit price equal to the record
price, and total price equal to unit price times quantity rounded to two
decimal places. -/
theorem C1_checkout_success (pid : String) (q : ℤ) (entropy : String)
    (t : RawTable) (recs : List Record) (r : Record)
    (hload : load_products_df t = .ok recs)
    (hfind : recs.find? (idMatches pid) = some r)
    (hq : 0 < q) (havail : q ≤ r.inventory_count) :
    ∃ ord t',
      checkout_internal pid q entropy t = .ok (.success ord, t') ∧
      ord.qty = q ∧
      ord.unit_price = r.price ∧
      ord.total_price = round2 (ord.unit_price * (q : ℚ)) ∧
      ∃ recs', load_products_df t' = .ok recs' ∧
        recs'.find? (idMatches pid) =
          some { r with inventory_count := r.inventory_count - q } := by
  have hq' : ¬ q ≤ 0 := not_le.mpr hq
  have hav' : ¬ r.inventory_count < q := not_lt.mpr havail
  simp only [checkout_internal, if_neg hq', hload, hfind, if_neg hav']
  refine ⟨_, _, rfl, rfl, rfl, rfl, _,
    load_save_roundtrip _, ?_⟩
  exact find?_decrementFirst (idMatches pid) q
    (fun r x => idMatches_set_inventory pid r x) recs r hfind

/-- Witness for C1 at the sample catalog: the lowercased id `p1` resolves to
`sampleRec1`, quantity 3 is positive and available, and the claim theorem
applies. -/
theorem C1_checkout_success_witness :
    load_products_df sampleTable = .ok [sampleRec1, sampleRec2] ∧
    List.find? (idMatches "p1") [sampleRec1, sampleRec2] = some sampleRec1 ∧
    (0 : ℤ) < 3 ∧ (3 : ℤ) ≤ sampleRec1.inventory_count ∧
    (∃ ord t',
      checkout_internal "p1" 3 "ab12cd34" sampleTable = .ok (.success ord, t') ∧
      ord.qty = 3 ∧
      ord.unit_price = sampleRec1.price ∧
      ord.total_price = round2 (ord.unit_price * ((3 : ℤ) : ℚ)) ∧
      ∃ recs', load_products_df t' = .ok recs' ∧
        recs'.find? (idMatches "p1") =
          some { sampleRec1 with
                   inventory_count := sampleRec1.inventory_count - 3 }) :=
  ⟨by decide, by decide, by decide, by decide,
   C1_checkout_success "p1" 3 "ab12cd34" sampleTable [sampleRec1, sampleRec2]
     sampleRec1 (by decide) (by decide) (by decide) (by decide)⟩

/-- Claim C2: checkout checks its preconditions in a fixed order, each
failure yielding exactly the corresponding error: a non-positive quantity
fails with the invalid-quantity error without consulting the catalog (no
load hypothesis is needed); an unresolved id fails with the not-found
error carrying the requested id; a resolved record with insufficient stock
fails with the insufficient-inventory error reporting the pre-call
inventory count. -/
theorem C2_checkout_failure_order (pid : String) (q : ℤ) (entropy : String)
    (t : RawTable) :
    (q ≤ 0 → checkout_internal pid q entropy t = .ok (.invalidQuantity, t)) ∧
    (∀ recs, 0 < q → load_products_df t = .ok recs →
      recs.find? (idMatches pid) = none →
      checkout_internal pid q entropy t = .ok (.notFound pid, t)) ∧
    (∀ recs r, 0 < q → load_products_df t = .ok recs →
      recs.find? (idMatches pid) = some r → r.inventory_count < q →
      checkout_internal pid q entropy t =
        .ok (.insufficientInventory r.inventory_count, t)) := by
  refine ⟨?_, ?_, ?_⟩
  · intro hq
    simp [checkout_internal, if_pos hq]
  · intro recs hq hload hfind
    simp [checkout_internal, if_neg (not_le.mpr hq), hload, hfind]
  · intro recs r hq hload hfind hlt
    simp [checkout_internal, if_neg (not_le.mpr hq), hload, hfind, if_pos hlt]

/-- Witness for C2 at the sample catalog: quantity 0 is rejected as invalid,
an unknown id is rejected as not found, and a request of 5 units of P2
with 3 in stock is rejected as insufficient, reporting 3. -/
theorem C2_checkout_failure_order_witness :
    checkout_internal "P1" 0 "w" sampleTable = .ok (.invalidQuantity, sampleTable) ∧
    checkout_internal "ZZ" 1 "w" sampleTable = .ok (.notFound "ZZ", sampleTable) ∧
    checkout_internal "p2" 5 "w" sampleTable =
      .ok (.insufficientInventory 3, sampleTable) :=
  ⟨(C2_checkout_failure_order "P1" 0 "w" sampleTable).1 (by decide),
   (C2_checkout_failure_order "ZZ" 1 "w" sampleTable).2.1
     [sampleRec1, sampleRec2] (by decide) (by decide) (by decide),
   (C2_checkout_failure_order "p2" 5 "w" sampleTable).2.2
     [sampleRec1, sampleRec2] sampleRec2 (by decide) (by decide) (by decide)
     (by decide)⟩

/-- Claim C3: every failing checkout call leaves the durable catalog
unchanged, so reloading after the failure yields exactly the catalog held
before the call. -/
theorem C3_failed_checkout_preserves_catalog (pid : String) (q : ℤ)
    (entropy : String) (t t' : RawTable) (res : CheckoutResult)
    (h : checkout_internal pid q entropy t = .ok (res, t'))
    (hfail : ∀ o, res ≠ .success o) :
    t' = t ∧ load_products_df t' = load_products_df t := by
  suffices ht : t' = t by exact ⟨ht, by rw [ht]⟩
  unfold checkout_internal at h
  by_cases hq : q ≤ 0
  · rw [if_pos hq] at h
    simp only [Except.ok.injEq, Prod.mk.injEq] at h
    exact h.2.symm
  · rw [if_neg hq] at h
    cases hload : load_products_df t with
    | error e => simp [hload] at h
    | ok df =>
      simp only [hload] at h
      cases hfind : df.find? (idMatches pid) with
      | none =>
        simp only [hfind, Except.ok.injEq, Prod.mk.injEq] at h
        exact h.2.symm
      | some r =>
        simp only [hfind] at h
        by_cases hlt : r.inventory_count < q
        · rw [if_pos hlt] at h
          simp only [Except.ok.injEq, Prod.mk.injEq] at h
          exact h.2.symm
        · rw [if_neg hlt] at h
          simp only [Except.ok.injEq, Prod.mk.injEq] at h
          exact absurd h.1.symm (hfail _)

/-- Witness for C3: an insufficient-inventory failure at the sample catalog
leaves the durable table unchanged. -/
theorem C3_failed_checkout_preserves_catalog_witness :
    sampleTable = sampleTable ∧
    load_products_df sampleTable = load_products_df sampleTable :=
  C3_failed_checkout_preserves_catalog "p2" 5 "w" sampleTable sampleTable
    (.insufficientInventory 3) (by decide) (by intro o; simp)

/-- Counterexample to claim C4 as stated: a catalog whose stored inventory
count is negative loads successfully with that negative value, because
`_load_products_df` casts `inventory_count` to an integer without
enforcing non-negativity. -/
theorem C4_load_negative_counterexample :
    load_products_df negTable = .ok [negRec] ∧ negRec.inventory_count < 0 :=
  ⟨by decide, by decide⟩

/-- Claim C4 amended: the load casts `inventory_count` to an integer but
does not enforce non-negativity (see the counterexample); what holds is
preservation: if every record of a successfully loaded catalog has a
non-negative inventory count, then after any successful checkout the
persisted catalog reloads with every inventory count still non-negative,
because a checkout that would drive a count negative is rejected by the
insufficient-inventory guard, never clamped. -/
theorem C4_checkout_preserves_nonneg (pid : String) (q : ℤ) (entropy : String)
    (t t' : RawTable) (recs : List Record) (ord : Order)
    (hload : load_products_df t = .ok recs)
    (hpos : ∀ r ∈ recs, 0 ≤ r.inventory_count)
    (h : checkout_internal pid q entropy t = .ok (.success ord, t')) :
    ∃ recs', load_products_df t' = .ok recs' ∧
      ∀ r' ∈ recs', 0 ≤ r'.inventory_count := by
  unfold checkout_internal at h
  by_cases hq : q ≤ 0
  · rw [if_pos hq] at h; simp at h
  · rw [if_neg hq] at h
    simp only [hload] at h
    cases hfind : recs.find? (idMatches pid) with
    | none => simp [hfind] at h
    | some r =>
      simp only [hfind] at h
      by_cases hlt : r.inventory_count < q
      · rw [if_pos hlt] at h; simp at h
      · rw [if_neg hlt] at h
        simp only [Except.ok.injEq, Prod.mk.injEq] at h
        refine ⟨decrementFirst (idMatches pid) q recs,
          by rw [← h.2]; exact load_save_roundtrip _, ?_⟩
        intro r' hr'
        rcases mem_decrementFirst _ _ _ _ hr' with hmem | ⟨r2, hfind2, rfl⟩
        · exact hpos r' hmem
        · rw [hfind] at hfind2
          injection hfind2 with h3
          subst h3
          show 0 ≤ r.inventory_count - q
          have := not_lt.mp hlt
          omega

/-- Witness for the amended C4: checkout of 3 units of P2 (3 in stock)
succeeds at the sample catalog, whose counts are all non-negative, and the
reloaded catalog still has only non-negative counts. -/
theorem C4_checkout_preserves_nonneg_witness :
    load_products_df sampleTable = .ok [sampleRec1, sampleRec2] ∧
    (∃ recs', load_products_df (save_products_df
        (decrementFirst (idMatches "p2") 3 [sampleRec1, sampleRec2])) =
          .ok recs' ∧
      ∀ r' ∈ recs', 0 ≤ r'.inventory_count) := by
  refine ⟨by decide, ?_⟩
  refine C4_checkout_preserves_nonneg "p2" 3 "w" sampleTable _
    [sampleRec1, sampleRec2]
    { order_id := "ORD-w", product_id := sampleRec2.product_id
    , product_name := sampleRec2.product_name, qty := 3
    , unit_price := sampleRec2.price
    , total_price := round2 (sampleRec2.price * ((3 : ℤ) : ℚ)) }
    (by decide) (by decide) ?_
  simp only [checkout_internal, load_products_df]
  norm_num
  rfl

/-- Claim C6: checkInventory on an id resolving to a record (under the
normalized case-insensitive match) returns success with the record data,
`inventoryCount` equal to the current catalog value and `inStock` true
exactly when the count is positive; an id resolving to no record returns
the not-found result carrying the requested id. -/
theorem C6_check_inventory (pid : String) (t : RawTable) (recs : List Record)
    (hload : load_products_df t = .ok recs) :
    (∀ r, recs.find? (idMatches pid) = some r →
      ∃ info, check_inventory_internal pid t = .ok (.found info) ∧
        info.inventory_count = r.inventory_count ∧
        (info.in_stock = true ↔ 0 < info.inventory_count) ∧
        info.product_id = r.product_id ∧
        info.product_name = r.product_name ∧
        info.price = r.price ∧ info.rating = r.rating) ∧
    (recs.find? (idMatches pid) = none →
      check_inventory_internal pid t = .ok (.notFound pid)) := by
  constructor
  · intro r hfind
    have hx : check_inventory_internal pid t = .ok (.found
        { product_id := r.product_id, product_name := r.product_name
        , price := r.price, rating := r.rating
        , inventory_count := r.inventory_count
        , in_stock := decide (0 < r.inventory_count) }) := by
      simp [check_inventory_internal, hload, hfind, Except.map]
    exact ⟨_, hx, rfl, by simp, rfl, rfl, rfl, rfl⟩
  · intro hfind
    simp [check_inventory_internal, hload, hfind, Except.map]

/-- Witness for C6 at the sample catalog: the padded lowercase id resolves
to P2 and reports 3 units in stock; an unknown id reports not found with
the requested id. -/
theorem C6_check_inventory_witness :
    (∃ info, check_inventory_internal " p2" sampleTable = .ok (.found info) ∧
      info.inventory_count = sampleRec2.inventory_count ∧
      (info.in_stock = true ↔ 0 < info.inventory_count) ∧
      info.product_id = sampleRec2.product_id ∧
      info.product_name = sampleRec2.product_name ∧
      info.price = sampleRec2.price ∧ info.rating = sampleRec2.rating) ∧
    check_inventory_internal "ZZ" sampleTable = .ok (.notFound "ZZ") :=
  ⟨(C6_check_inventory " p2" sampleTable [sampleRec1, sampleRec2]
      (by decide)).1 sampleRec2 (by decide),
   (C6_check_inventory "ZZ" sampleTable [sampleRec1, sampleRec2]
      (by decide)).2 (by decide)⟩

/-- Claim C9: for every catalog that loads successfully, persisting the
loaded catalog and loading again yields a catalog identical to the
originally loaded one. -/
theorem C9_load_persist_load (t : RawTable) (recs : List Record)
    (_hload : load_products_df t = .ok recs) :
    load_products_df (save_products_df recs) = .ok recs :=
  load_save_roundtrip recs

/-- Witness for C9 at the sample catalog. -/
theorem C9_load_persist_load_witness :
    load_products_df sampleTable = .ok [sampleRec1, sampleRec2] ∧
    load_products_df (save_products_df [sampleRec1, sampleRec2]) =
      .ok [sampleRec1, sampleRec2] :=
  ⟨by decide, C9_load_persist_load sampleTable _ (by decide)⟩

/-- The conjunction of the supplied filter predicates, as the claim states
them: the type predicate compares the lowercased record type with the
normalized parameter and is skipped for an absent or empty parameter; each
numeric predicate is skipped exactly when its parameter is absent. -/
def satisfiesAll (pt : Option String) (mr mp xp : Option ℚ) (r : Record) :
    Prop :=
  (∀ s, pt = some s → s ≠ "" → pyLower r.type = pyLower (pyStrip s)) ∧
  (∀ v, mr = some v → v ≤ r.rating) ∧
  (∀ v, mp = some v → v ≤ r.price) ∧
  (∀ v, xp = some v → r.price ≤ v)

theorem mem_filter_chain {pt : Option String} {mr mp xp : Option ℚ}
    {l : List Record} {r : Record}
    (h : r ∈ applyMaxPrice xp (applyMinPrice mp
      (applyMinRating mr (applyTypeFilter pt l)))) :
    r ∈ l ∧ satisfiesAll pt mr mp xp r := by
  rcases mem_applyMaxPrice h with ⟨h3, hxp⟩
  rcases mem_applyMinPrice h3 with ⟨h2, hmp⟩
  rcases mem_applyMinRating h2 with ⟨h1, hmr⟩
  rcases mem_applyTypeFilter h1 with ⟨h0, hpt⟩
  exact ⟨h0, hpt, hmr, hmp, hxp⟩

theorem filter_chain_mem {pt : Option String} {mr mp xp : Option ℚ}
    {l : List Record} {r : Record} (hmem : r ∈ l)
    (hs : satisfiesAll pt mr mp xp r) :
    r ∈ applyMaxPrice xp (applyMinPrice mp
      (applyMinRating mr (applyTypeFilter pt l))) :=
  applyMaxPrice_mem (applyMinPrice_mem (applyMinRating_mem
    (applyTypeFilter_mem hmem hs.1) hs.2.1) hs.2.2.1) hs.2.2.2

theorem dfHead_sublist (n : ℤ) (l : List Record) : (dfHead n l).Sublist l := by
  unfold dfHead
  split <;> exact List.take_sublist _ _

theorem dfHead_length_le (n : ℤ) (hn : 0 ≤ n) (l : List Record) :
    ((dfHead n l).length : ℤ) ≤ n := by
  unfold dfHead
  rw [if_pos hn]
  simp only [List.length_take]
  omega

/-- Claim C5 amended: every returned recommendation comes from the catalog
and satisfies all supplied predicates conjunctively, the list is sorted by
rating descending with ties broken by price ascending, its length is at
most `top_n` whenever `top_n` is nonnegative (for a negative `top_n` the
pandas `head` keeps all but the last rows instead, see the
counterexample), and when no record satisfies all supplied predicates the
result is a success with count 0 and no recommendations rather than an
error. -/
theorem C5_filter_contract (pt : Option String) (mr mp xp : Option ℚ)
    (tn : ℤ) (t : RawTable) (recs : List Record) (res : FilterResult)
    (hload : load_products_df t = .ok recs)
    (hres : filter_products_internal pt mr mp xp tn t = .ok res) :
    (∀ r ∈ res.recommendations, r ∈ recs ∧ satisfiesAll pt mr mp xp r) ∧
    res.recommendations.Pairwise rankedBefore ∧
    (0 ≤ tn → (res.recommendations.length : ℤ) ≤ tn) ∧
    ((∀ r ∈ recs, ¬ satisfiesAll pt mr mp xp r) →
      res = { count := 0, recommendations := [] }) := by
  have hres' : res = filterCore pt mr mp xp tn recs := by
    rw [filter_products_internal, hload] at hres
    simpa [Except.map] using hres.symm
  subst hres'
  by_cases hemp : (applyMaxPrice xp (applyMinPrice mp
      (applyMinRating mr (applyTypeFilter pt recs)))).isEmpty = true
  · have hcore : filterCore pt mr mp xp tn recs =
        { count := 0, recommendations := [] } := by
      simp only [filterCore, hemp, if_pos]
    rw [hcore]
    exact ⟨(by intro r hr; cases hr), List.Pairwise.nil,
      (by intro h; simpa using h), fun _ => rfl⟩
  · have hcore : filterCore pt mr mp xp tn recs =
        { count := (dfHead tn ((applyMaxPrice xp (applyMinPrice mp
            (applyMinRating mr (applyTypeFilter pt recs)))).insertionSort
              recBefore)).length
        , recommendations := dfHead tn ((applyMaxPrice xp (applyMinPrice mp
            (applyMinRating mr (applyTypeFilter pt recs)))).insertionSort
              recBefore) } := by
      simp only [filterCore, hemp, if_neg, Bool.false_eq_true,
        not_false_iff]
    rw [hcore]
    refine ⟨?_, ?_, ?_, ?_⟩
    · intro r hr
      have hr2 : r ∈ (applyMaxPrice xp (applyMinPrice mp
          (applyMinRating mr (applyTypeFilter pt recs)))).insertionSort
            recBefore :=
        (dfHead_sublist tn _).subset hr
      exact mem_filter_chain ((List.perm_insertionSort recBefore _).subset hr2)
    · exact ((List.sorted_insertionSort recBefore _).sublist
        (dfHead_sublist tn _)).imp (fun h => (recBefore_iff _ _).mp h)
    · intro htn
      exact dfHead_length_le tn htn _
    · intro hnone
      exfalso
      cases hf : applyMaxPrice xp (applyMinPrice mp
          (applyMinRating mr (applyTypeFilter pt recs))) with
      | nil => rw [hf] at hemp; simp at hemp
      | cons a tl =>
        have ha : a ∈ applyMaxPrice xp (applyMinPrice mp
            (applyMinRating mr (applyTypeFilter pt recs))) := by
          rw [hf]; exact List.mem_cons_self _ _
        rcases mem_filter_chain ha with ⟨hmem, hsat⟩
        exact hnone a hmem hsat

/-- Witness for the amended C5: filtering the sample catalog for type
gadget, rating at least 4, price at most 150, top 5 returns exactly the
widget record, which satisfies all predicates, and the contract theorem
applies. -/
theorem C5_filter_contract_witness :
    load_products_df sampleTable = .ok [sampleRec1, sampleRec2] ∧
    filter_products_internal (some "gadget") (some 4) none (some 150) 5
      sampleTable = .ok { count := 1, recommendations := [sampleRec1] } ∧
    ((∀ r ∈ ({ count := 1, recommendations := [sampleRec1] } :
        FilterResult).recommendations,
      r ∈ [sampleRec1, sampleRec2] ∧
        satisfiesAll (some "gadget") (some 4) none (some 150) r) ∧
    ({ count := 1, recommendations := [sampleRec1] } :
        FilterResult).recommendations.Pairwise rankedBefore ∧
    (0 ≤ (5 : ℤ) →
      ((({ count := 1, recommendations := [sampleRec1] } :
        FilterResult).recommendations.length : ℕ) : ℤ) ≤ 5) ∧
    ((∀ r ∈ [sampleRec1, sampleRec2],
        ¬ satisfiesAll (some "gadget") (some 4) none (some 150) r) →
      ({ count := 1, recommendations := [sampleRec1] } : FilterResult) =
        { count := 0, recommendations := [] })) :=
  ⟨by decide, by decide,
   C5_filter_contract (some "gadget") (some 4) none (some 150) 5 sampleTable
     [sampleRec1, sampleRec2] { count := 1, recommendations := [sampleRec1] }
     (by decide) (by decide)⟩

/-- Counterexample to claim C5 as stated: with `top_n = -1`, the pandas
`head` keeps all but the last sorted row, so filtering the two-record
sample catalog returns one recommendation, and its length is not at most
`top_n`. -/
theorem C5_filter_counterexample :
    filter_products_internal none none none none (-1) sampleTable =
      .ok { count := 1, recommendations := [sampleRec1] } ∧
    ¬ ((([sampleRec1].length : ℕ) : ℤ) ≤ -1) :=
  ⟨by decide, by decide⟩

/-- The per-record match predicate of the search over the normalized
(stripped, lowercased) keyword: the lowercased name or the lowercased
description contains it as a substring. -/
def keywordMatches (kw : String) (r : Record) : Prop :=
  strContainsSub (pyLower r.product_name) (pyLower (pyStrip kw)) = true ∨
  strContainsSub (pyLower r.product_description) (pyLower (pyStrip kw)) = true

/-- Claim C7 amended: for every keyword whose normalized (stripped,
lowercased) form is free of regular-expression metacharacters, search
succeeds with exactly the records whose name or description contains the
trimmed keyword as a case-insensitive substring (the source strips the
keyword before matching, see the counterexample); an empty or
whitespace-only keyword yields the invalid-argument result; such a keyword
matching no record yields success with an empty list, not an error.  A
keyword holding a regex metacharacter is handed to the regular-expression
engine, which the embedding leaves unmodelled, so no conclusion is drawn
for it. -/
theorem C7_search_contract (kw : String) (t : RawTable) (recs : List Record)
    (hload : load_products_df t = .ok recs)
    (hplain : plainQuery (pyLower (pyStrip kw)) = true) :
    ∃ res, search_product_by_name_internal kw t = some (.ok res) ∧
      (kw.data.all Char.isWhitespace = true → res = .emptyQuery) ∧
      (kw.data.all Char.isWhitespace = false →
        ∃ ms, res = .found ms.length ms ∧
          ∀ r, r ∈ ms ↔ r ∈ recs ∧ keywordMatches kw r) ∧
      (kw.data.all Char.isWhitespace = false →
        (∀ r ∈ recs, ¬ keywordMatches kw r) → res = .found 0 []) := by
  by_cases hq : pyLower (pyStrip kw) = ""
  · have hq2 : (pyLower (pyStrip kw) == "") = true := beq_iff_eq.mpr hq
    have hws : kw.data.all Char.isWhitespace = true :=
      (pyLower_pyStrip_eq_empty_iff kw).mp hq
    refine ⟨.emptyQuery, ?_, fun _ => rfl, ?_, ?_⟩
    · simp [search_product_by_name_internal, hload, hq2]
    · intro hws2; rw [hws] at hws2; cases hws2
    · intro hws2; rw [hws] at hws2; cases hws2
  · have hq2 : (pyLower (pyStrip kw) == "") = false := beq_eq_false_iff_ne.mpr hq
    have hws : kw.data.all Char.isWhitespace = false := by
      cases h : kw.data.all Char.isWhitespace with
      | false => rfl
      | true => exact absurd ((pyLower_pyStrip_eq_empty_iff kw).mpr h) hq
    refine ⟨.found
        (recs.filter (searchRowMatches (pyLower (pyStrip kw)))).length
        (recs.filter (searchRowMatches (pyLower (pyStrip kw)))),
      ?_, ?_, ?_, ?_⟩
    · simp [search_product_by_name_internal, hload, hq2, hplain]
    · intro hws2; rw [hws] at hws2; cases hws2
    · intro _
      refine ⟨recs.filter (searchRowMatches (pyLower (pyStrip kw))), rfl, ?_⟩
      intro r
      rw [List.mem_filter]
      constructor
      · rintro ⟨hmem, hmat⟩
        exact ⟨hmem, by simpa [searchRowMatches, keywordMatches] using hmat⟩
      · rintro ⟨hmem, hmat⟩
        exact ⟨hmem, by simpa [searchRowMatches, keywordMatches] using hmat⟩
    · intro _ hnone
      have hnil :
          recs.filter (searchRowMatches (pyLower (pyStrip kw))) = [] := by
        rw [List.filter_eq_nil_iff]
        intro r hmem hmat
        exact hnone r hmem
          (by simpa [searchRowMatches, keywordMatches] using hmat)
      rw [hnil]
      rfl

/-- Witness for the amended C7: `WIDG` is metacharacter-free and returns
exactly the widget record; the whitespace-only keyword is metacharacter
free as well and is rejected as an empty query. -/
theorem C7_search_contract_witness :
    load_products_df sampleTable = .ok [sampleRec1, sampleRec2] ∧
    plainQuery (pyLower (pyStrip "WIDG")) = true ∧
    (∃ res, search_product_by_name_internal "WIDG" sampleTable =
        some (.ok res) ∧
      ("WIDG".data.all Char.isWhitespace = true → res = .emptyQuery) ∧
      ("WIDG".data.all Char.isWhitespace = false →
        ∃ ms, res = .found ms.length ms ∧
          ∀ r, r ∈ ms ↔ r ∈ [sampleRec1, sampleRec2] ∧
            keywordMatches "WIDG" r) ∧
      ("WIDG".data.all Char.isWhitespace = false →
        (∀ r ∈ [sampleRec1, sampleRec2], ¬ keywordMatches "WIDG" r) →
        res = .found 0 [])) ∧
    plainQuery (pyLower (pyStrip "  ")) = true ∧
    (∃ res, search_product_by_name_internal "  " sampleTable =
        some (.ok res) ∧
      ("  ".data.all Char.isWhitespace = true → res = .emptyQuery) ∧
      ("  ".data.all Char.isWhitespace = false →
        ∃ ms, res = .found ms.length ms ∧
          ∀ r, r ∈ ms ↔ r ∈ [sampleRec1, sampleRec2] ∧
            keywordMatches "  " r) ∧
      ("  ".data.all Char.isWhitespace = false →
        (∀ r ∈ [sampleRec1, sampleRec2], ¬ keywordMatches "  " r) →
        res = .found 0 [])) :=
  ⟨by decide, by decide,
   C7_search_contract "WIDG" sampleTable [sampleRec1, sampleRec2]
     (by decide) (by decide),
   by decide,
   C7_search_contract "  " sampleTable [sampleRec1, sampleRec2]
     (by decide) (by decide)⟩

/-- Counterexample to claim C7 as stated: the keyword `widget ` (with a
trailing space) is neither empty nor whitespace-only and is free of regex
metacharacters, and no field of the returned record contains it as a
case-insensitive substring, yet the search returns that record, because
the source strips the keyword before matching. -/
theorem C7_search_counterexample :
    search_product_by_name_internal "widget " sampleTable =
      some (.ok (.found 1 [sampleRec1])) ∧
    "widget ".data.all Char.isWhitespace = false ∧
    strContainsSub (pyLower sampleRec1.product_name)
      (pyLower "widget ") = false ∧
    strContainsSub (pyLower sampleRec1.product_description)
      (pyLower "widget ") = false :=
  ⟨by decide, by decide, by decide, by decide⟩


/-- Claim C8: the catalog load is all-or-nothing.  A missing required
column fails the load with an error naming exactly the required columns
absent from the table; with all columns present, any row whose price,
rating or inventory cell fails numeric coercion fails the entire load; and
a successful load validated every row, never returning a partially valid
catalog (the embedding is a pure function, so the load has no side
effects). -/
theorem C8_load_all_or_nothing (t : RawTable) :
    ((∃ c ∈ requiredCols, c ∉ t.columns) →
      load_products_df t = .error (.missingColumns
        (requiredCols.filter (fun c => !(t.columns.contains c)))) ∧
      ∀ m, m ∈ requiredCols.filter (fun c => !(t.columns.contains c)) ↔
        (m ∈ requiredCols ∧ m ∉ t.columns)) ∧
    ((∀ c ∈ requiredCols, c ∈ t.columns) →
      ∀ row ∈ t.rows,
        ((getCell t.columns row "price").bind toNumericCell = none ∨
         (getCell t.columns row "rating").bind toNumericCell = none ∨
         (getCell t.columns row "inventory_count").bind toNumericCell = none) →
        load_products_df t = .error .castError) ∧
    (∀ recs, load_products_df t = .ok recs →
      parseRows t.columns t.rows = some recs ∧
      recs.length = t.rows.length) := by
  refine ⟨?_, ?_, ?_⟩
  · rintro ⟨c, hc, hnc⟩
    have hmem : c ∈ requiredCols.filter (fun c => !(t.columns.contains c)) :=
      List.mem_filter.mpr ⟨hc, by simpa using hnc⟩
    have hne : (requiredCols.filter
        (fun c => !(t.columns.contains c))).isEmpty = false := by
      rcases hf : requiredCols.filter (fun c => !(t.columns.contains c)) with
        _ | ⟨a, tl⟩
      · rw [hf] at hmem; cases hmem
      · rfl
    constructor
    · rw [load_products_df]
      simp only [hne, Bool.false_eq_true, if_false]
    · intro m
      simp [List.mem_filter]
  · intro hall row hrow hfail
    have hemp : (requiredCols.filter
        (fun c => !(t.columns.contains c))).isEmpty = true := by
      have : requiredCols.filter (fun c => !(t.columns.contains c)) = [] := by
        rw [List.filter_eq_nil_iff]
        intro c hc
        simpa using hall c hc
      rw [this]
      rfl
    have hrows : parseRows t.columns t.rows = none :=
      parseRows_eq_none_of_mem t.columns t.rows row hrow
        (parseRow_eq_none_of_fail t.columns row hfail)
    rw [load_products_df]
    simp only [hemp, if_true, hrows]
  · intro recs hok
    rw [load_products_df] at hok
    by_cases hemp : (requiredCols.filter
        (fun c => !(t.columns.contains c))).isEmpty = true
    · rw [if_pos hemp] at hok
      cases hrows : parseRows t.columns t.rows with
      | none => rw [hrows] at hok; cases hok
      | some rs =>
        rw [hrows] at hok
        cases hok
        exact ⟨rfl, parseRows_length _ _ _ hrows⟩
    · rw [if_neg hemp] at hok
      cases hok

/-- Witness for C8: a table lacking the price column fails naming it, a
table with a textual price cell fails the cast, and the successful sample
load validated both rows. -/
theorem C8_load_all_or_nothing_witness :
    (load_products_df missingColTable = .error (.missingColumns
        (requiredCols.filter
          (fun c => !(missingColTable.columns.contains c)))) ∧
      ∀ m, m ∈ requiredCols.filter
          (fun c => !(missingColTable.columns.contains c)) ↔
        (m ∈ requiredCols ∧ m ∉ missingColTable.columns)) ∧
    load_products_df badCellTable = .error .castError ∧
    (parseRows sampleTable.columns sampleTable.rows =
        some [sampleRec1, sampleRec2] ∧
      ([sampleRec1, sampleRec2] : List Record).length =
        sampleTable.rows.length) :=
  ⟨(C8_load_all_or_nothing missingColTable).1 (by decide),
   (C8_load_all_or_nothing badCellTable).2.1 (by decide)
     [Cell.str "B1", Cell.str "Bad", Cell.str "Bad row",
      Cell.str "gadget", Cell.str "n/a", Cell.num 4, Cell.num 2]
     (by decide) (by decide),
   (C8_load_all_or_nothing sampleTable).2.2 [sampleRec1, sampleRec2]
     (by decide)⟩

/-- Claim C10: in the filter, an empty-string product type behaves exactly
as an absent one for every catalog and every other parameter, while a
supplied minimum rating, minimum price or maximum price of zero is still
applied as a predicate: each is shown to change the result on a concrete
catalog holding a record with negative rating or price, or positive
price. -/
theorem C10_empty_type_skipped_zero_minimums_applied :
    (∀ (mr mp xp : Option ℚ) (tn : ℤ) (t : RawTable),
        filter_products_internal (some "") mr mp xp tn t =
          filter_products_internal none mr mp xp tn t) ∧
    filter_products_internal none (some 0) none none 5 oddTable ≠
      filter_products_internal none none none none 5 oddTable ∧
    filter_products_internal none none (some 0) none 5 oddTable ≠
      filter_products_internal none none none none 5 oddTable ∧
    filter_products_internal none none none (some 0) 5 sampleTable ≠
      filter_products_internal none none none none 5 sampleTable := by
  refine ⟨?_, by decide, by decide, by decide⟩
  intro mr mp xp tn t
  have hty : applyTypeFilter (some "") = applyTypeFilter none := by
    funext l
    simp [applyTypeFilter]
  cases hl : load_products_df t with
  | error e => simp [filter_products_internal, hl, Except.map]
  | ok df =>
    simp [filter_products_internal, hl, Except.map, filterCore, hty]
